import Mathlib

/-!
# encryption-key-granter: token cache, KMS describe pipeline and reconcile pass

A shallow embedding of

* `internal/tokenprovider/k8s.go`  (`tokenCacheKey`, `K8s.GetToken`),
* `internal/aws/aws.go`            (`NewAwsKMS`, `AwsKMS.DescribeKey`),
* `internal/controller/encryptionkey_controller.go` (`Reconcile`),
* `api/v1alpha1/encryptionkey_types.go` (the resource types).

Conventions of the embedding.

* Go `string` is `String`; a `time.Time` is an `Int`, the nanoseconds since the
  Unix epoch, and a `time.Duration` is an `Int` number of nanoseconds.
* A Go `(value, error)` pair is a value together with an `Option GoError`
  (`none` is the nil error); a pointer that may be nil is an `Option`.
* Collaborators outside the repository (Kubernetes API server, controller-runtime
  client, AWS SDK) are an oracle `Env`: each call gets its context and its
  arguments and answers with a result and the wall-clock time the call took.
* Every function threads the mutable state `World` explicitly and returns, next
  to its Go return value, the list of collaborator calls it made, in order.
* Logging is not modelled. Calls run one after the other: the mutex of `K8s`
  only matters for concurrent callers and has no sequential effect.
-/

namespace KeyGranter

/-! ## Go runtime values -/

/-- Go error values: an error produced by a collaborator, carrying its message,
or the `*fmt.wrapError` that `fmt.Errorf` builds for a format with one `%w`. -/
inductive GoError where
  | errorString (s : String)
  | wrapError (msg : String) (err : GoError)
deriving DecidableEq, Repr

/-- The `Error()` method. -/
def GoError.Error : GoError → String
  | .errorString s => s
  | .wrapError msg _ => msg

/-- The `Unwrap()` method as seen by `errors.Unwrap`. -/
def GoError.Unwrap : GoError → Option GoError
  | .errorString _ => none
  | .wrapError _ err => some err

/-- The call `fmt.Errorf(format, ..., err)` for a format whose text before the
final `%w` verb has already been rendered to `text`. -/
def Errorf (text : String) (err : GoError) : GoError :=
  .wrapError (text ++ err.Error) err

/-- The type `context.Context`, as far as its origin is concerned. -/
inductive Context where
  | Background
  | incoming (id : Nat)
  | WithTimeout (parent : Context) (timeout : Int)
deriving DecidableEq, Repr

/-- The two ways a Go call ends: it returns, or it panics. -/
inductive Outcome (α : Type) where
  | returned (v : α)
  | panicked (msg : String)
deriving DecidableEq, Repr

/-- The answer of a collaborator: how long the call took and what it gave. -/
structure Reply (α : Type) where
  elapsed : Nat
  result : α
deriving DecidableEq, Repr

/-- The constant `time.Second`, in nanoseconds. -/
def Second : Int := 1000000000

/-- The constant `time.Minute`. -/
def Minute : Int := 60 * Second

/-- The smallest `time.Duration` (an int64). -/
def minDuration : Int := -(2 ^ 63)

/-- The largest `time.Duration`. -/
def maxDuration : Int := 2 ^ 63 - 1

/-- The method `Time.Sub`: the difference `t - u`, saturated to the range of
`time.Duration`. -/
def Time.Sub (t u : Int) : Int :=
  if t - u < minDuration then minDuration
  else if maxDuration < t - u then maxDuration
  else t - u

/-- The function `time.Until(t)` when the clock reads `now`. -/
def Until (now t : Int) : Int := Time.Sub t now

/-- The instant that survives the wire format of `metav1.Time`, which is RFC 3339
with whole seconds: the fraction of a second is dropped. -/
def wholeSeconds (t : Int) : Int := t / Second * Second

/-! ## Token provider (`internal/tokenprovider/k8s.go`) -/

structure tokenCacheEntry where
  token : String
  expiresAt : Int
deriving DecidableEq, Repr

structure TokenRequestSpec where
  Audiences : List String
  ExpirationSeconds : Option Int
deriving DecidableEq, Repr

structure TokenRequestStatus where
  Token : String
  ExpirationTimestamp : Int
deriving DecidableEq, Repr

structure TokenRequest where
  Spec : TokenRequestSpec
  Status : TokenRequestStatus
deriving DecidableEq, Repr

/-- The function `tokenCacheKey`: `fmt.Sprintf` of `%s|%s|%s`. -/
def tokenCacheKey (namespace_ sa audience : String) : String :=
  namespace_ ++ "|" ++ sa ++ "|" ++ audience

/-! ## Resource types (`api/v1alpha1/encryptionkey_types.go`) -/

structure EncryptionKeySpec where
  KeyID : String
  AccountID : String
  KubernetesServiceAccount : String
deriving DecidableEq, Repr

/-- The observed state. A `*metav1.Time` is an optional instant. -/
structure EncryptionKeyStatus where
  LastReconciledTime : Option Int
  Arn : String
  CreationDate : Option Int
  Description : String
  Enabled : Bool
  KeyState : String
  KeyUsage : String
  Origin : String
  DeletionDate : Option Int
  ValidTo : Option Int
  CustomKeyStoreId : String
  CloudHsmClusterId : String
  KeyManager : String
  CustomerMasterKeySpec : String
  KeySpec : String
  EncryptionAlgorithms : List String
  SigningAlgorithms : List String
  MultiRegion : Bool
deriving DecidableEq, Repr

/-- The status as the storage layer keeps it: it receives the status in its
wire format, in which every `metav1.Time` has whole seconds. -/
def EncryptionKeyStatus.stored (st : EncryptionKeyStatus) : EncryptionKeyStatus :=
  { st with
    LastReconciledTime := st.LastReconciledTime.map wholeSeconds,
    CreationDate := st.CreationDate.map wholeSeconds,
    DeletionDate := st.DeletionDate.map wholeSeconds,
    ValidTo := st.ValidTo.map wholeSeconds }

/-- The resource. Of the embedded `metav1.ObjectMeta` only the two fields that
identify the object are kept. -/
structure EncryptionKey where
  Namespace : String
  Name : String
  Spec : EncryptionKeySpec
  Status : EncryptionKeyStatus
deriving DecidableEq, Repr

/-- The type `types.NamespacedName`. -/
structure NamespacedName where
  Namespace : String
  Name : String
deriving DecidableEq, Repr

/-- The type `ctrl.Request`. -/
structure Request where
  NamespacedName : NamespacedName
deriving DecidableEq, Repr

/-- The type `ctrl.Result`; its zero value asks for no requeue. -/
structure Result where
  Requeue : Bool := false
  RequeueAfter : Int := 0
deriving DecidableEq, Repr

/-! ## AWS SDK values used by `internal/aws/aws.go` -/

/-- The part of `aws.Config` that the clients built here read. -/
structure Config where
  Region : String
deriving DecidableEq, Repr

structure AssumeRoleWithWebIdentityInput where
  RoleArn : Option String
  RoleSessionName : Option String
  WebIdentityToken : Option String
  DurationSeconds : Option Int
deriving DecidableEq, Repr

/-- The type `ststypes.Credentials`: every field is a pointer. -/
structure StsCredentials where
  AccessKeyId : Option String
  SecretAccessKey : Option String
  SessionToken : Option String
  Expiration : Option Int
deriving DecidableEq, Repr

structure AssumeRoleWithWebIdentityOutput where
  Credentials : Option StsCredentials
deriving DecidableEq, Repr

/-- The value of `aws.Credentials` inside the static credentials provider. -/
structure Credentials where
  AccessKeyID : String
  SecretAccessKey : String
  SessionToken : String
deriving DecidableEq, Repr

structure DescribeKeyInput where
  KeyId : Option String
deriving DecidableEq, Repr

/-- The attributes of `kmstypes.KeyMetadata` that have a counterpart in
`EncryptionKeyStatus`, with the SDK's pointer fields as options. -/
structure KeyMetadata where
  Arn : Option String
  CreationDate : Option Int
  Description : Option String
  Enabled : Bool
  KeyState : String
  KeyUsage : String
  Origin : String
  DeletionDate : Option Int
  ValidTo : Option Int
  CustomKeyStoreId : Option String
  CloudHsmClusterId : Option String
  KeyManager : String
  CustomerMasterKeySpec : String
  KeySpec : String
  EncryptionAlgorithms : List String
  SigningAlgorithms : List String
  MultiRegion : Option Bool
deriving DecidableEq, Repr

structure DescribeKeyOutput where
  KeyMetadata : Option KeyMetadata
deriving DecidableEq, Repr

/-! ## Collaborators, state and call log -/

deriving instance DecidableEq for Except

/-- One call to a collaborator: the context and arguments it was made with and
what it answered. -/
inductive Event where
  | Get (ctx : Context) (key : NamespacedName) (res : Except GoError EncryptionKey)
  | CreateToken (ctx : Context) (namespace_ sa : String) (req : TokenRequest)
      (res : Except GoError TokenRequest)
  | LoadDefaultConfig (ctx : Context) (res : Except GoError Config)
  | AssumeRoleWithWebIdentity (ctx : Context) (region : String)
      (input : AssumeRoleWithWebIdentityInput)
      (res : Except GoError AssumeRoleWithWebIdentityOutput)
  | DescribeKey (ctx : Context) (region : String) (creds : Credentials)
      (input : DescribeKeyInput) (res : Except GoError (Option DescribeKeyOutput))
  | StatusUpdate (ctx : Context) (obj : EncryptionKey) (res : Option GoError)
deriving DecidableEq, Repr

/-- The collaborators outside the repository.

* `Get`: the controller-runtime client read of the resource.
* `IsNotFound`: the classification `errors.IsNotFound` of apimachinery.
* `CreateToken`: `corev1.ServiceAccounts(namespace).CreateToken(ctx, sa, req, opts)`.
* `LoadDefaultConfig`: `config.LoadDefaultConfig(ctx)`.
* `AssumeRoleWithWebIdentity`: the STS client, built for a region.
* `DescribeKey`: the KMS client, built for a region with static credentials.
* `StatusUpdate`: `r.Status().Update(ctx, obj)`. -/
structure Env where
  Get : Context → NamespacedName → Reply (Except GoError EncryptionKey)
  IsNotFound : GoError → Bool
  CreateToken : Context → String → String → TokenRequest → Reply (Except GoError TokenRequest)
  LoadDefaultConfig : Context → Reply (Except GoError Config)
  AssumeRoleWithWebIdentity : Context → String → AssumeRoleWithWebIdentityInput →
    Reply (Except GoError AssumeRoleWithWebIdentityOutput)
  DescribeKey : Context → String → Credentials → DescribeKeyInput →
    Reply (Except GoError (Option DescribeKeyOutput))
  StatusUpdate : Context → EncryptionKey → Reply (Option GoError)

/-- The mutable state: the clock, the map `K8s.cache`, and the observed state
that the storage layer holds for each resource. -/
structure World where
  now : Int
  cache : String → Option tokenCacheEntry
  status : NamespacedName → Option EncryptionKeyStatus

/-- Time passes while a collaborator works; the clock never runs backwards. -/
def World.tick (w : World) (elapsed : Nat) : World :=
  { w with now := w.now + elapsed }

/-- What a call leaves behind: its Go return value, the state, and the
collaborator calls it made. -/
structure Run (α : Type) where
  ret : α
  world : World
  calls : List Event

/-- The method `K8s.GetToken` of `k8s.go`. -/
def K8s.GetToken (env : Env) (w : World) (ctx : Context)
    (targetNamespace k8sServiceAccountName audience : String) :
    Run (String × Option GoError) :=
  let key := tokenCacheKey targetNamespace k8sServiceAccountName audience
  let hit : Option tokenCacheEntry :=
    match w.cache key with
    | some entry => if Until w.now entry.expiresAt > 30 * Second then some entry else none
    | none => none
  match hit with
  | some entry => ⟨(entry.token, none), w, []⟩
  | none =>
    let expiration : Int := 900
    let tokenRequest : TokenRequest :=
      { Spec := { Audiences := [audience], ExpirationSeconds := some expiration },
        Status := { Token := "", ExpirationTimestamp := 0 } }
    let reply := env.CreateToken ctx targetNamespace k8sServiceAccountName tokenRequest
    let w1 := w.tick reply.elapsed
    let calls := [Event.CreateToken ctx targetNamespace k8sServiceAccountName tokenRequest
      reply.result]
    match reply.result with
    | .error err =>
      ⟨("", some (Errorf ("failed to create token for service account " ++
          k8sServiceAccountName ++ " in targetNamespace " ++ targetNamespace ++ ": ") err)),
        w1, calls⟩
    | .ok tokenResp =>
      let expiresAt := w1.now + Second * expiration
      let stored : tokenCacheEntry :=
        { token := tokenResp.Status.Token, expiresAt := expiresAt }
      ⟨(tokenResp.Status.Token, none),
        { w1 with cache := Function.update w1.cache key (some stored) },
        calls⟩

/-! ## KMS describe pipeline (`internal/aws/aws.go`) -/

/-- The values of the interface `TokenProvider` that the repository builds: the
caching provider of `k8s.go`, whose map is `World.cache`. The nil interface is
`none : Option TokenProvider`. -/
inductive TokenProvider where
  | k8s
deriving DecidableEq, Repr

structure AwsKMS where
  tenantRoleARN : String
  keyARN : String
  roleSessionName : String
  token : Option TokenProvider
  region : String
deriving DecidableEq, Repr

/-- The type `Option` of `aws.go`, a function that configures an `AwsKMS`
(renamed: `Option` is taken). -/
abbrev KmsOption := AwsKMS → AwsKMS

def WithTenantRoleARN (tenantRoleARN : String) : KmsOption :=
  fun a => { a with tenantRoleARN := tenantRoleARN }

def WithKeyARN (keyARN : String) : KmsOption :=
  fun a => { a with keyARN := keyARN }

def WithRoleSessionName (roleSessionName : String) : KmsOption :=
  fun a => { a with roleSessionName := roleSessionName }

def WithTokenProvider (token : Option TokenProvider) : KmsOption :=
  fun a => { a with token := token }

def WithRegion (region : String) : KmsOption :=
  fun a => { a with region := region }

def WithDefaultRoleSessionName (name : String) : KmsOption :=
  fun a => { a with roleSessionName := name }

/-- The function `NewAwsKMS`: default instance, options applied in order, then
the three required-field checks, each of which panics. -/
def NewAwsKMS (opts : List KmsOption) : Outcome AwsKMS :=
  let awsKMS0 : AwsKMS :=
    { tenantRoleARN := "", keyARN := "", roleSessionName := "default-session",
      token := none, region := "" }
  let awsKMS := opts.foldl (fun a opt => opt a) awsKMS0
  if awsKMS.tenantRoleARN = "" then
    .panicked "tenantRoleARN is required, use WithTenantRoleARN option"
  else if awsKMS.keyARN = "" then
    .panicked "keyARN is required, use WithKeyARN option"
  else if awsKMS.token = none then
    .panicked "token provider is required, use WithTokenProvider option"
  else .returned awsKMS

/-- The runtime panic of a nil dereference. -/
def nilDereference : String :=
  "runtime error: invalid memory address or nil pointer dereference"

/-- The method `AwsKMS.DescribeKey`. -/
def AwsKMS.DescribeKey (a : AwsKMS) (env : Env) (w : World) (ctx : Context)
    (targetNamespace k8sServiceAccountName : String) :
    Run (Outcome (Option DescribeKeyOutput × Option GoError)) :=
  match a.token with
  | none => ⟨.panicked nilDereference, w, []⟩
  | some .k8s =>
    let t := K8s.GetToken env w ctx targetNamespace k8sServiceAccountName "sts.amazonaws.com"
    match t.ret with
    | (_, some err) =>
      ⟨.returned (none, some (Errorf "failed to get web identity token: " err)),
        t.world, t.calls⟩
    | (webIdentityToken, none) =>
      let c := env.LoadDefaultConfig ctx
      let w2 := t.world.tick c.elapsed
      let calls2 := t.calls ++ [Event.LoadDefaultConfig ctx c.result]
      match c.result with
      | .error err =>
        ⟨.returned (none, some (Errorf "unable to load SDK config, " err)), w2, calls2⟩
      | .ok cfg =>
        let region := if a.region ≠ "" then a.region else cfg.Region
        let input : AssumeRoleWithWebIdentityInput :=
          { RoleArn := some a.tenantRoleARN,
            RoleSessionName := some a.roleSessionName,
            WebIdentityToken := some webIdentityToken,
            DurationSeconds := some 900 }
        let s := env.AssumeRoleWithWebIdentity Context.Background region input
        let w3 := w2.tick s.elapsed
        let calls3 := calls2 ++
          [Event.AssumeRoleWithWebIdentity Context.Background region input s.result]
        match s.result with
        | .error err =>
          ⟨.returned (none, some (Errorf "failed to assume role with web identity: " err)),
            w3, calls3⟩
        | .ok assumeRoleOutput =>
          match assumeRoleOutput.Credentials with
          | none => ⟨.panicked nilDereference, w3, calls3⟩
          | some stsCreds =>
            match stsCreds.AccessKeyId, stsCreds.SecretAccessKey, stsCreds.SessionToken with
            | some accessKeyId, some secretAccessKey, some sessionToken =>
              let creds : Credentials :=
                { AccessKeyID := accessKeyId, SecretAccessKey := secretAccessKey,
                  SessionToken := sessionToken }
              let keyInput : DescribeKeyInput := { KeyId := some a.keyARN }
              let k := env.DescribeKey Context.Background region creds keyInput
              let w4 := w3.tick k.elapsed
              let calls4 := calls3 ++
                [Event.DescribeKey Context.Background region creds keyInput k.result]
              match k.result with
              | .error err =>
                ⟨.returned (none, some (Errorf "failed to describe key: " err)), w4, calls4⟩
              | .ok key => ⟨.returned (key, none), w4, calls4⟩
            | _, _, _ => ⟨.panicked nilDereference, w3, calls3⟩

/-! ## Reconcile pass (`internal/controller/encryptionkey_controller.go`) -/

structure EncryptionKeyReconciler where
  tokenProvider : Option TokenProvider
deriving DecidableEq, Repr

/-- The name under which the storage layer keeps a resource. -/
def EncryptionKey.key (obj : EncryptionKey) : NamespacedName :=
  { Namespace := obj.Namespace, Name := obj.Name }

/-- The method `EncryptionKeyReconciler.Reconcile`. A status update that the
storage layer accepts makes the status it was given, in its wire format, the
stored observed state of that resource. -/
def Reconcile (r : EncryptionKeyReconciler) (env : Env) (w : World) (ctx : Context)
    (req : Request) : Run (Outcome (Result × Option GoError)) :=
  let g := env.Get ctx req.NamespacedName
  let w1 := w.tick g.elapsed
  let calls1 := [Event.Get ctx req.NamespacedName g.result]
  match g.result with
  | .error err =>
    if env.IsNotFound err then ⟨.returned ({}, none), w1, calls1⟩
    else ⟨.returned ({}, some err), w1, calls1⟩
  | .ok encryptionKey =>
    match NewAwsKMS [WithTenantRoleARN encryptionKey.Spec.AccountID,
        WithKeyARN encryptionKey.Spec.KeyID,
        WithRoleSessionName "encryption-observer",
        WithTokenProvider r.tokenProvider] with
    | .panicked msg => ⟨.panicked msg, w1, calls1⟩
    | .returned awskms =>
      let ctxWithTimeout := Context.WithTimeout ctx (10 * Second)
      let d := awskms.DescribeKey env w1 ctxWithTimeout encryptionKey.Namespace
        encryptionKey.Spec.KubernetesServiceAccount
      let calls2 := calls1 ++ d.calls
      match d.ret with
      | .panicked msg => ⟨.panicked msg, d.world, calls2⟩
      | .returned (_, some err) =>
        ⟨.returned ({}, some (Errorf "failed to describe KMS key: " err)), d.world, calls2⟩
      | .returned (info, none) =>
        match info.bind (fun i => i.KeyMetadata) with
        | none => ⟨.returned ({ RequeueAfter := Minute }, none), d.world, calls2⟩
        | some keyMetadata =>
          match keyMetadata.Arn with
          | none => ⟨.panicked nilDereference, d.world, calls2⟩
          | some arn =>
            let updated : EncryptionKey :=
              { encryptionKey with
                Status := { encryptionKey.Status with
                  KeyState := keyMetadata.KeyState,
                  Arn := arn,
                  LastReconciledTime := some d.world.now } }
            let u := env.StatusUpdate ctx updated
            let w3 := d.world.tick u.elapsed
            let calls3 := calls2 ++ [Event.StatusUpdate ctx updated u.result]
            match u.result with
            | some err =>
              ⟨.returned ({}, some (Errorf "failed to update status: " err)), w3, calls3⟩
            | none =>
              let stored := Function.update w3.status updated.key
                (some updated.Status.stored)
              ⟨.returned ({ RequeueAfter := Minute }, none), { w3 with status := stored },
                calls3⟩

/-! ## Predicates on the call log -/

/-- The three steps of the credential pipeline, when they answer with an
error: token issuance, federation exchange, key describe. -/
def Event.failedStep : Event → Bool
  | .CreateToken _ _ _ _ (.error _) => true
  | .AssumeRoleWithWebIdentity _ _ _ (.error _) => true
  | .DescribeKey _ _ _ _ (.error _) => true
  | _ => false

/-- Whether the call is a status update. -/
def Event.isStatusUpdate : Event → Bool
  | .StatusUpdate _ _ _ => true
  | _ => false

/-- The error with which a call to the token issuer, the federation exchange,
the key describe service or the status update answered, if it did. -/
def Event.failure : Event → Option GoError
  | .CreateToken _ _ _ _ (.error e) => some e
  | .AssumeRoleWithWebIdentity _ _ _ (.error e) => some e
  | .DescribeKey _ _ _ _ (.error e) => some e
  | .StatusUpdate _ _ (some e) => some e
  | _ => none

/-- The context a call was made with. -/
def Event.ctx : Event → Context
  | .Get c _ _ => c
  | .CreateToken c _ _ _ _ => c
  | .LoadDefaultConfig c _ => c
  | .AssumeRoleWithWebIdentity c _ _ _ => c
  | .DescribeKey c _ _ _ _ => c
  | .StatusUpdate c _ _ => c

/-- Whether a context is `parent` itself or was derived from it, so that the
deadline and the cancellation of `parent` reach it. -/
def Context.inherits (parent : Context) : Context → Bool
  | .Background => parent = .Background
  | .incoming id => parent = .incoming id
  | .WithTimeout p t => parent = .WithTimeout p t || Context.inherits parent p

/-! ## A concrete pass

The resource `key1` of namespace `ns1` names key `k1`, role `arn:aws:iam::1:role/r`
and service account `sa1`; the issuer answers `tok-1`, the federation exchange
answers credentials, and the provider describes an enabled key. -/

def exStatus : EncryptionKeyStatus :=
  { LastReconciledTime := none, Arn := "", CreationDate := none, Description := "",
    Enabled := false, KeyState := "", KeyUsage := "SIGN_VERIFY", Origin := "",
    DeletionDate := none, ValidTo := none, CustomKeyStoreId := "", CloudHsmClusterId := "",
    KeyManager := "", CustomerMasterKeySpec := "", KeySpec := "",
    EncryptionAlgorithms := [], SigningAlgorithms := [], MultiRegion := false }

def exKey : EncryptionKey :=
  { Namespace := "ns1", Name := "key1",
    Spec := { KeyID := "k1", AccountID := "arn:aws:iam::1:role/r",
              KubernetesServiceAccount := "sa1" },
    Status := exStatus }

def exMetadata : KeyMetadata :=
  { Arn := some "arn:aws:kms:eu-north-1:1:key/k1", CreationDate := some 5,
    Description := some "tenant key", Enabled := true, KeyState := "Enabled",
    KeyUsage := "ENCRYPT_DECRYPT", Origin := "AWS_KMS", DeletionDate := none,
    ValidTo := none, CustomKeyStoreId := none, CloudHsmClusterId := none,
    KeyManager := "CUSTOMER", CustomerMasterKeySpec := "SYMMETRIC_DEFAULT",
    KeySpec := "SYMMETRIC_DEFAULT", EncryptionAlgorithms := ["SYMMETRIC_DEFAULT"],
    SigningAlgorithms := [], MultiRegion := some false }

def exTokenResp : TokenRequest :=
  { Spec := { Audiences := ["sts.amazonaws.com"], ExpirationSeconds := some 900 },
    Status := { Token := "tok-1", ExpirationTimestamp := 0 } }

def exStsOutput : AssumeRoleWithWebIdentityOutput :=
  { Credentials := some { AccessKeyId := some "AKIA", SecretAccessKey := some "secret",
                          SessionToken := some "session", Expiration := none } }

/-- Every collaborator answers, each call taking one second. -/
def exEnv : Env :=
  { Get := fun _ _ => ⟨1000000000, .ok exKey⟩,
    IsNotFound := fun e => e.Error = "not found",
    CreateToken := fun _ _ _ _ => ⟨1000000000, .ok exTokenResp⟩,
    LoadDefaultConfig := fun _ => ⟨1000000000, .ok { Region := "eu-north-1" }⟩,
    AssumeRoleWithWebIdentity := fun _ _ _ => ⟨1000000000, .ok exStsOutput⟩,
    DescribeKey := fun _ _ _ _ => ⟨1000000000, .ok (some { KeyMetadata := some exMetadata })⟩,
    StatusUpdate := fun _ _ => ⟨1000000000, none⟩ }

/-- The resource has been deleted. -/
def exEnvAbsent : Env :=
  { exEnv with Get := fun _ _ => ⟨1000000000, .error (.errorString "not found")⟩ }

/-- The token issuer refuses. -/
def exEnvNoToken : Env :=
  { exEnv with CreateToken := fun _ _ _ _ => ⟨1000000000, .error (.errorString "boom")⟩ }

/-- The federation exchange refuses. -/
def exEnvNoRole : Env :=
  { exEnv with
    AssumeRoleWithWebIdentity := fun _ _ _ => ⟨1000000000, .error (.errorString "denied")⟩ }

/-- Every collaborator answers, each call taking one millisecond. -/
def exEnvFast : Env :=
  { Get := fun _ _ => ⟨1000000, .ok exKey⟩,
    IsNotFound := fun e => e.Error = "not found",
    CreateToken := fun _ _ _ _ => ⟨1000000, .ok exTokenResp⟩,
    LoadDefaultConfig := fun _ => ⟨1000000, .ok { Region := "eu-north-1" }⟩,
    AssumeRoleWithWebIdentity := fun _ _ _ => ⟨1000000, .ok exStsOutput⟩,
    DescribeKey := fun _ _ _ _ => ⟨1000000, .ok (some { KeyMetadata := some exMetadata })⟩,
    StatusUpdate := fun _ _ => ⟨1000000, none⟩ }

/-- A cold cache at clock reading 1000s. -/
def exWorld : World :=
  { now := 1000 * Second, cache := fun _ => none, status := fun _ => none }

/-- A cache whose entry for the pass has `remaining` nanoseconds left. -/
def exWorldCached (remaining : Int) : World :=
  { exWorld with
    cache := fun k => if k = "ns1|sa1|sts.amazonaws.com"
      then some { token := "tok-0", expiresAt := 1000 * Second + remaining } else none }

/-- A cold cache at clock reading 1000.9s. -/
def exWorldLate : World :=
  { now := 1000 * Second + 900000000, cache := fun _ => none, status := fun _ => none }

def exRequest : Request := { NamespacedName := { Namespace := "ns1", Name := "key1" } }

def exReconciler : EncryptionKeyReconciler := { tokenProvider := some .k8s }

/-! ## Theorems -/

theorem Until_gt_iff (now t : Int) :
    Until now t > 30 * Second ↔ t - now > 30 * Second := by
  unfold Until Time.Sub minDuration maxDuration Second
  split_ifs <;> omega

theorem GetToken_hit_eq (env : Env) (w : World) (ctx : Context) (ns sa aud : String)
    (entry : tokenCacheEntry) (hfound : w.cache (tokenCacheKey ns sa aud) = some entry)
    (hvalid : entry.expiresAt - w.now > 30 * Second) :
    K8s.GetToken env w ctx ns sa aud = ⟨(entry.token, none), w, []⟩ := by
  have h := (Until_gt_iff w.now entry.expiresAt).mpr hvalid
  unfold K8s.GetToken
  simp only [hfound, h, if_true]

theorem GetToken_issue_eq (env : Env) (w : World) (ctx : Context) (ns sa aud : String)
    (hstale : ∀ entry, w.cache (tokenCacheKey ns sa aud) = some entry →
      entry.expiresAt - w.now ≤ 30 * Second) :
    K8s.GetToken env w ctx ns sa aud =
      match (env.CreateToken ctx ns sa
        { Spec := { Audiences := [aud], ExpirationSeconds := some 900 },
          Status := { Token := "", ExpirationTimestamp := 0 } }).result with
      | .error err =>
        ⟨("", some (Errorf ("failed to create token for service account " ++ sa ++
            " in targetNamespace " ++ ns ++ ": ") err)),
          w.tick (env.CreateToken ctx ns sa
            { Spec := { Audiences := [aud], ExpirationSeconds := some 900 },
              Status := { Token := "", ExpirationTimestamp := 0 } }).elapsed,
          [Event.CreateToken ctx ns sa
            { Spec := { Audiences := [aud], ExpirationSeconds := some 900 },
              Status := { Token := "", ExpirationTimestamp := 0 } } (.error err)]⟩
      | .ok resp =>
        ⟨(resp.Status.Token, none),
          { now := w.now + (env.CreateToken ctx ns sa
              { Spec := { Audiences := [aud], ExpirationSeconds := some 900 },
                Status := { Token := "", ExpirationTimestamp := 0 } }).elapsed,
            cache := Function.update w.cache (tokenCacheKey ns sa aud)
              (some ⟨resp.Status.Token, w.now + (env.CreateToken ctx ns sa
                { Spec := { Audiences := [aud], ExpirationSeconds := some 900 },
                  Status := { Token := "", ExpirationTimestamp := 0 } }).elapsed +
                    900 * Second⟩),
            status := w.status },
          [Event.CreateToken ctx ns sa
            { Spec := { Audiences := [aud], ExpirationSeconds := some 900 },
              Status := { Token := "", ExpirationTimestamp := 0 } } (.ok resp)]⟩ := by
  unfold K8s.GetToken
  have hmiss : (match w.cache (tokenCacheKey ns sa aud) with
      | some entry => if Until w.now entry.expiresAt > 30 * Second then some entry else none
      | none => none) = none := by
    cases hc : w.cache (tokenCacheKey ns sa aud) with
    | none => rfl
    | some entry =>
      have h1 := hstale entry hc
      have h2 : ¬ (Until w.now entry.expiresAt > 30 * Second) := by
        rw [Until_gt_iff]; omega
      simp only [h2, if_false]
  simp only [hmiss]
  cases hr : (env.CreateToken ctx ns sa
        { Spec := { Audiences := [aud], ExpirationSeconds := some 900 },
          Status := { Token := "", ExpirationTimestamp := 0 } }).result with
  | error err => rfl
  | ok resp => simp only [World.tick, mul_comm]

/-- C1. Cache reuse: an entry with more than 30 seconds left is returned as it
is, with a nil error, without any call to the issuer, and the cache (indeed the
whole state) stays as it was. -/
theorem GetToken_cache_reuse (env : Env) (w : World) (ctx : Context) (ns sa aud : String)
    (entry : tokenCacheEntry) (hfound : w.cache (tokenCacheKey ns sa aud) = some entry)
    (hvalid : entry.expiresAt - w.now > 30 * Second) :
    (K8s.GetToken env w ctx ns sa aud).ret = (entry.token, none) ∧
    (K8s.GetToken env w ctx ns sa aud).calls = [] ∧
    (K8s.GetToken env w ctx ns sa aud).world.cache = w.cache ∧
    (K8s.GetToken env w ctx ns sa aud).world = w := by
  rw [GetToken_hit_eq env w ctx ns sa aud entry hfound hvalid]
  exact ⟨rfl, rfl, rfl, rfl⟩

theorem GetToken_cache_reuse_witness :
    (K8s.GetToken exEnvNoToken (exWorldCached (31 * Second)) (.incoming 0)
      "ns1" "sa1" "sts.amazonaws.com").ret = ("tok-0", none) ∧
    (K8s.GetToken exEnvNoToken (exWorldCached (31 * Second)) (.incoming 0)
      "ns1" "sa1" "sts.amazonaws.com").calls = [] :=
  have h := GetToken_cache_reuse exEnvNoToken (exWorldCached (31 * Second)) (.incoming 0)
    "ns1" "sa1" "sts.amazonaws.com" ⟨"tok-0", 1000 * Second + 31 * Second⟩
    (by decide) (by decide)
  ⟨h.1, h.2.1⟩

/-- C2. Cache refresh: on a miss, or with at most 30 seconds left (exactly 30
included), a successful issuer is called once, for the namespace, service
account and audience of the call with a requested expiration of 900 seconds;
its token is returned with a nil error and stored under the key with expiry
900 seconds after the clock reading taken when the issuer answered; every other
key keeps its entry. -/
theorem GetToken_cache_refresh (env : Env) (w : World) (ctx : Context) (ns sa aud : String)
    (resp : TokenRequest)
    (hstale : w.cache (tokenCacheKey ns sa aud) = none ∨
      ∃ entry, w.cache (tokenCacheKey ns sa aud) = some entry ∧
        entry.expiresAt - w.now ≤ 30 * Second)
    (hok : (env.CreateToken ctx ns sa
      { Spec := { Audiences := [aud], ExpirationSeconds := some 900 },
        Status := { Token := "", ExpirationTimestamp := 0 } }).result = .ok resp) :
    (K8s.GetToken env w ctx ns sa aud).ret = (resp.Status.Token, none) ∧
    (K8s.GetToken env w ctx ns sa aud).calls =
      [Event.CreateToken ctx ns sa
        { Spec := { Audiences := [aud], ExpirationSeconds := some 900 },
          Status := { Token := "", ExpirationTimestamp := 0 } } (.ok resp)] ∧
    (K8s.GetToken env w ctx ns sa aud).world.now = w.now + (env.CreateToken ctx ns sa
      { Spec := { Audiences := [aud], ExpirationSeconds := some 900 },
        Status := { Token := "", ExpirationTimestamp := 0 } }).elapsed ∧
    (K8s.GetToken env w ctx ns sa aud).world.cache (tokenCacheKey ns sa aud) =
      some { token := resp.Status.Token,
             expiresAt := (K8s.GetToken env w ctx ns sa aud).world.now + 900 * Second } ∧
    ∀ k, k ≠ tokenCacheKey ns sa aud →
      (K8s.GetToken env w ctx ns sa aud).world.cache k = w.cache k := by
  have hs : ∀ entry, w.cache (tokenCacheKey ns sa aud) = some entry →
      entry.expiresAt - w.now ≤ 30 * Second := by
    intro entry he
    rcases hstale with h | ⟨entry2, h, hle⟩
    · rw [h] at he; cases he
    · rw [h] at he; cases he; exact hle
  rw [GetToken_issue_eq env w ctx ns sa aud hs]
  simp only [hok]
  refine ⟨trivial, trivial, trivial, ?_, ?_⟩
  · simp only [Function.update_same]
  · intro k hk
    simp only [Function.update_noteq hk]

theorem GetToken_cache_refresh_witness :
    (K8s.GetToken exEnv (exWorldCached (30 * Second)) (.incoming 0)
      "ns1" "sa1" "sts.amazonaws.com").ret = ("tok-1", none) ∧
    (K8s.GetToken exEnv (exWorldCached (30 * Second)) (.incoming 0)
      "ns1" "sa1" "sts.amazonaws.com").world.cache "ns1|sa1|sts.amazonaws.com" =
      some { token := "tok-1", expiresAt := 1001 * Second + 900 * Second } :=
  have h := GetToken_cache_refresh exEnv (exWorldCached (30 * Second)) (.incoming 0)
    "ns1" "sa1" "sts.amazonaws.com" exTokenResp
    (Or.inr ⟨⟨"tok-0", 1000 * Second + 30 * Second⟩, by decide, by decide⟩) (by decide)
  ⟨h.1, h.2.2.2.1⟩

/-- C3. Issuance failure: when the call has to issue (miss, or at most 30
seconds left) and the issuer answers with an error, the call returns the empty
token with a non-nil error, has called the issuer exactly once, and the cache
is the cache from before the call. -/
theorem GetToken_issuance_failure (env : Env) (w : World) (ctx : Context)
    (ns sa aud : String) (err : GoError)
    (hstale : w.cache (tokenCacheKey ns sa aud) = none ∨
      ∃ entry, w.cache (tokenCacheKey ns sa aud) = some entry ∧
        entry.expiresAt - w.now ≤ 30 * Second)
    (herr : (env.CreateToken ctx ns sa
      { Spec := { Audiences := [aud], ExpirationSeconds := some 900 },
        Status := { Token := "", ExpirationTimestamp := 0 } }).result = .error err) :
    (∃ e, (K8s.GetToken env w ctx ns sa aud).ret = ("", some e)) ∧
    (K8s.GetToken env w ctx ns sa aud).calls =
      [Event.CreateToken ctx ns sa
        { Spec := { Audiences := [aud], ExpirationSeconds := some 900 },
          Status := { Token := "", ExpirationTimestamp := 0 } } (.error err)] ∧
    (K8s.GetToken env w ctx ns sa aud).world.cache = w.cache := by
  have hs : ∀ entry, w.cache (tokenCacheKey ns sa aud) = some entry →
      entry.expiresAt - w.now ≤ 30 * Second := by
    intro entry he
    rcases hstale with h | ⟨entry2, h, hle⟩
    · rw [h] at he; cases he
    · rw [h] at he; cases he; exact hle
  rw [GetToken_issue_eq env w ctx ns sa aud hs]
  simp only [herr]
  exact ⟨⟨_, rfl⟩, trivial, rfl⟩

theorem GetToken_issuance_failure_witness :
    (K8s.GetToken exEnvNoToken (exWorldCached (10 * Second)) (.incoming 0)
      "ns1" "sa1" "sts.amazonaws.com").world.cache = (exWorldCached (10 * Second)).cache ∧
    ∃ e, (K8s.GetToken exEnvNoToken (exWorldCached (10 * Second)) (.incoming 0)
      "ns1" "sa1" "sts.amazonaws.com").ret = ("", some e) :=
  have h := GetToken_issuance_failure exEnvNoToken (exWorldCached (10 * Second))
    (.incoming 0) "ns1" "sa1" "sts.amazonaws.com" (.errorString "boom")
    (Or.inr ⟨⟨"tok-0", 1000 * Second + 10 * Second⟩, by decide, by decide⟩) (by decide)
  ⟨h.2.2, h.1⟩

theorem append_sep_inj (c : Char) :
    ∀ (a b x y : List Char), c ∉ a → c ∉ b → a ++ c :: x = b ++ c :: y → a = b ∧ x = y
  | [], [], x, y, _, _, h => by
    simp only [List.nil_append, List.cons.injEq, true_and] at h
    exact ⟨rfl, h⟩
  | [], d :: b, x, y, _, hb, h => by
    simp only [List.nil_append, List.cons_append, List.cons.injEq] at h
    exact absurd (h.1 ▸ List.mem_cons_self c b) hb
  | d :: a, [], x, y, ha, _, h => by
    simp only [List.nil_append, List.cons_append, List.cons.injEq] at h
    exact absurd (h.1 ▸ List.mem_cons_self d a) ha
  | d :: a, e :: b, x, y, ha, hb, h => by
    simp only [List.cons_append, List.cons.injEq] at h
    have ha2 : c ∉ a := fun hm => ha (List.mem_cons_of_mem d hm)
    have hb2 : c ∉ b := fun hm => hb (List.mem_cons_of_mem e hm)
    obtain ⟨hab, hxy⟩ := append_sep_inj c a b x y ha2 hb2 h.2
    exact ⟨by rw [h.1, hab], hxy⟩

theorem tokenCacheKey_data (ns sa aud : String) :
    (tokenCacheKey ns sa aud).data = ns.data ++ '|' :: (sa.data ++ '|' :: aud.data) := by
  unfold tokenCacheKey
  simp [String.data_append]

theorem tokenCacheKey_inj (ns1 sa1 aud1 ns2 sa2 aud2 : String)
    (h1 : '|' ∉ ns1.data) (h2 : '|' ∉ sa1.data) (h3 : '|' ∉ ns2.data) (h4 : '|' ∉ sa2.data)
    (h : tokenCacheKey ns1 sa1 aud1 = tokenCacheKey ns2 sa2 aud2) :
    ns1 = ns2 ∧ sa1 = sa2 ∧ aud1 = aud2 := by
  have hd := congrArg String.data h
  rw [tokenCacheKey_data, tokenCacheKey_data] at hd
  obtain ⟨hns, hrest⟩ := append_sep_inj '|' _ _ _ _ h1 h3 hd
  obtain ⟨hsa, haud⟩ := append_sep_inj '|' _ _ _ _ h2 h4 hrest
  exact ⟨String.ext hns, String.ext hsa, String.ext haud⟩

theorem GetToken_cache_other (env : Env) (w : World) (ctx : Context) (ns sa aud : String)
    (k : String) (hk : k ≠ tokenCacheKey ns sa aud) :
    (K8s.GetToken env w ctx ns sa aud).world.cache k = w.cache k := by
  unfold K8s.GetToken
  simp only []
  split
  · rfl
  · split
    · rfl
    · simp only [World.tick, Function.update_noteq hk]

/-- C10, as amended. For triples whose namespace and service account contain no
`|`, equal cache keys come from equal triples; and a call for one such triple
leaves the entry under the key of every different such triple as it was, so a
later hit for that other triple cannot return a token stored by this call. -/
theorem tokenCacheKey_injective_on_names (ns1 sa1 aud1 ns2 sa2 aud2 : String)
    (h1 : '|' ∉ ns1.data) (h2 : '|' ∉ sa1.data) (h3 : '|' ∉ ns2.data)
    (h4 : '|' ∉ sa2.data) :
    (tokenCacheKey ns1 sa1 aud1 = tokenCacheKey ns2 sa2 aud2 →
      ns1 = ns2 ∧ sa1 = sa2 ∧ aud1 = aud2) ∧
    ((ns1, sa1, aud1) ≠ (ns2, sa2, aud2) → ∀ (env : Env) (w : World) (ctx : Context),
      (K8s.GetToken env w ctx ns1 sa1 aud1).world.cache (tokenCacheKey ns2 sa2 aud2) =
        w.cache (tokenCacheKey ns2 sa2 aud2)) := by
  refine ⟨tokenCacheKey_inj ns1 sa1 aud1 ns2 sa2 aud2 h1 h2 h3 h4, ?_⟩
  intro hne env w ctx
  apply GetToken_cache_other
  intro hkey
  obtain ⟨a, b, c⟩ := tokenCacheKey_inj ns1 sa1 aud1 ns2 sa2 aud2 h1 h2 h3 h4 hkey.symm
  exact hne (by rw [a, b, c])

theorem tokenCacheKey_injective_on_names_witness :
    (tokenCacheKey "ns1" "sa1" "sts.amazonaws.com" = tokenCacheKey "ns1" "sa2" "a|b" →
      "ns1" = "ns1" ∧ "sa1" = "sa2" ∧ "sts.amazonaws.com" = "a|b") ∧
    (("ns1", "sa1", "sts.amazonaws.com") ≠ ("ns1", "sa2", "a|b") →
      ∀ (env : Env) (w : World) (ctx : Context),
      (K8s.GetToken env w ctx "ns1" "sa1" "sts.amazonaws.com").world.cache
          (tokenCacheKey "ns1" "sa2" "a|b") =
        w.cache (tokenCacheKey "ns1" "sa2" "a|b")) :=
  tokenCacheKey_injective_on_names "ns1" "sa1" "sts.amazonaws.com" "ns1" "sa2" "a|b"
    (by decide) (by decide) (by decide) (by decide)

/-- C10, counterexample. The triples `(ns1, sa1, x|sts.amazonaws.com)` and
`(ns1, sa1|x, sts.amazonaws.com)` differ and have the same key, and after a call
for the first has stored `tok-1`, a call for the second is a cache hit that
returns `tok-1` without calling the issuer. -/
theorem tokenCacheKey_collision :
    tokenCacheKey "ns1" "sa1" "x|sts.amazonaws.com" =
      tokenCacheKey "ns1" "sa1|x" "sts.amazonaws.com" ∧
    ¬ ("ns1" = "ns1" ∧ "sa1" = "sa1|x" ∧ "x|sts.amazonaws.com" = "sts.amazonaws.com") ∧
    (K8s.GetToken exEnv exWorld (.incoming 0) "ns1" "sa1" "x|sts.amazonaws.com").calls ≠ [] ∧
    (K8s.GetToken exEnvNoToken
      (K8s.GetToken exEnv exWorld (.incoming 0) "ns1" "sa1" "x|sts.amazonaws.com").world
      (.incoming 1) "ns1" "sa1|x" "sts.amazonaws.com").ret = ("tok-1", none) ∧
    (K8s.GetToken exEnvNoToken
      (K8s.GetToken exEnv exWorld (.incoming 0) "ns1" "sa1" "x|sts.amazonaws.com").world
      (.incoming 1) "ns1" "sa1|x" "sts.amazonaws.com").calls = [] := by
  decide

theorem GetToken_cases (env : Env) (w : World) (ctx : Context) (ns sa aud : String) :
    (∃ entry : tokenCacheEntry,
      K8s.GetToken env w ctx ns sa aud = ⟨(entry.token, none), w, []⟩) ∨
    (∃ err el req, K8s.GetToken env w ctx ns sa aud =
      ⟨("", some (Errorf ("failed to create token for service account " ++ sa ++
          " in targetNamespace " ++ ns ++ ": ") err)), w.tick el,
        [Event.CreateToken ctx ns sa req (.error err)]⟩) ∨
    (∃ resp el req c, K8s.GetToken env w ctx ns sa aud =
      ⟨(resp.Status.Token, none), { now := w.now + (el : Nat), cache := c, status := w.status },
        [Event.CreateToken ctx ns sa req (.ok resp)]⟩) := by
  by_cases h : ∃ entry, w.cache (tokenCacheKey ns sa aud) = some entry ∧
      entry.expiresAt - w.now > 30 * Second
  · obtain ⟨entry, hf, hv⟩ := h
    exact Or.inl ⟨entry, GetToken_hit_eq env w ctx ns sa aud entry hf hv⟩
  · have hs : ∀ entry, w.cache (tokenCacheKey ns sa aud) = some entry →
        entry.expiresAt - w.now ≤ 30 * Second := by
      intro entry he
      by_contra hgt
      exact h ⟨entry, he, by omega⟩
    rw [GetToken_issue_eq env w ctx ns sa aud hs]
    cases hr : (env.CreateToken ctx ns sa
        { Spec := { Audiences := [aud], ExpirationSeconds := some 900 },
          Status := { Token := "", ExpirationTimestamp := 0 } }).result with
    | error err => exact Or.inr (Or.inl ⟨err, _, _, rfl⟩)
    | ok resp => exact Or.inr (Or.inr ⟨resp, _, _, _, rfl⟩)

theorem DescribeKey_shape (a : AwsKMS) (env : Env) (w : World) (ctx : Context)
    (ns sa : String) (htok : a.token = some .k8s) :
    (a.DescribeKey env w ctx ns sa).world.status =
      (K8s.GetToken env w ctx ns sa "sts.amazonaws.com").world.status ∧
    (K8s.GetToken env w ctx ns sa "sts.amazonaws.com").world.now ≤
      (a.DescribeKey env w ctx ns sa).world.now ∧
    ((∃ err, (K8s.GetToken env w ctx ns sa "sts.amazonaws.com").ret.2 = some err ∧
        (a.DescribeKey env w ctx ns sa).calls =
          (K8s.GetToken env w ctx ns sa "sts.amazonaws.com").calls ∧
        (a.DescribeKey env w ctx ns sa).ret =
          .returned (none, some (Errorf "failed to get web identity token: " err))) ∨
     ((K8s.GetToken env w ctx ns sa "sts.amazonaws.com").ret.2 = none ∧
      ((∃ err, (a.DescribeKey env w ctx ns sa).calls =
          (K8s.GetToken env w ctx ns sa "sts.amazonaws.com").calls ++
            [Event.LoadDefaultConfig ctx (.error err)] ∧
        (a.DescribeKey env w ctx ns sa).ret =
          .returned (none, some (Errorf "unable to load SDK config, " err))) ∨
       (∃ cfg rg inp err, (a.DescribeKey env w ctx ns sa).calls =
          (K8s.GetToken env w ctx ns sa "sts.amazonaws.com").calls ++
            [Event.LoadDefaultConfig ctx (.ok cfg),
             Event.AssumeRoleWithWebIdentity .Background rg inp (.error err)] ∧
        (a.DescribeKey env w ctx ns sa).ret =
          .returned (none, some (Errorf "failed to assume role with web identity: " err))) ∨
       (∃ cfg rg inp out, (a.DescribeKey env w ctx ns sa).calls =
          (K8s.GetToken env w ctx ns sa "sts.amazonaws.com").calls ++
            [Event.LoadDefaultConfig ctx (.ok cfg),
             Event.AssumeRoleWithWebIdentity .Background rg inp (.ok out)] ∧
        (a.DescribeKey env w ctx ns sa).ret = .panicked nilDereference) ∨
       (∃ cfg rg inp out cr kin err, (a.DescribeKey env w ctx ns sa).calls =
          (K8s.GetToken env w ctx ns sa "sts.amazonaws.com").calls ++
            [Event.LoadDefaultConfig ctx (.ok cfg),
             Event.AssumeRoleWithWebIdentity .Background rg inp (.ok out),
             Event.DescribeKey .Background rg cr kin (.error err)] ∧
        (a.DescribeKey env w ctx ns sa).ret =
          .returned (none, some (Errorf "failed to describe key: " err))) ∨
       (∃ cfg rg inp out cr kin key, (a.DescribeKey env w ctx ns sa).calls =
          (K8s.GetToken env w ctx ns sa "sts.amazonaws.com").calls ++
            [Event.LoadDefaultConfig ctx (.ok cfg),
             Event.AssumeRoleWithWebIdentity .Background rg inp (.ok out),
             Event.DescribeKey .Background rg cr kin (.ok key)] ∧
        (a.DescribeKey env w ctx ns sa).ret = .returned (key, none))))) := by
  unfold AwsKMS.DescribeKey
  simp only [htok]
  generalize K8s.GetToken env w ctx ns sa "sts.amazonaws.com" = t
  obtain ⟨⟨tok, e⟩, tw, tc⟩ := t
  cases e with
  | some err => exact ⟨rfl, le_refl _, Or.inl ⟨err, rfl, rfl, rfl⟩⟩
  | none =>
    simp only []
    repeat' split
    all_goals refine ⟨rfl, ?_, ?_⟩
    all_goals simp_all [World.tick]
    all_goals first
      | omega
      | exact ⟨_, _, _, _, ⟨rfl, rfl, rfl, rfl⟩, rfl⟩
      | exact ⟨_, _, _, _, rfl, rfl, rfl, rfl⟩
      | exact ⟨_, _, _, _, _, _, _, ⟨rfl, rfl, rfl, rfl, rfl, rfl, rfl⟩, rfl⟩
      | exact ⟨_, _, _, _, _, _, rfl, rfl, rfl, rfl, rfl, rfl⟩
      | exact ⟨_, _, _, _, _, _, _, ⟨rfl, ⟨rfl, rfl, rfl⟩, rfl, rfl, rfl, rfl⟩, rfl⟩

theorem DescribeKey_paths (a : AwsKMS) (env : Env) (w : World) (ctx : Context)
    (ns sa : String) (htok : a.token = some .k8s) :
    ((a.DescribeKey env w ctx ns sa).world.status = w.status ∧
      w.now ≤ (a.DescribeKey env w ctx ns sa).world.now) ∧
    ((∃ req err, (a.DescribeKey env w ctx ns sa).calls =
          [Event.CreateToken ctx ns sa req (.error err)] ∧
        (a.DescribeKey env w ctx ns sa).ret =
          .returned (none, some (Errorf "failed to get web identity token: "
            (Errorf ("failed to create token for service account " ++ sa ++
              " in targetNamespace " ++ ns ++ ": ") err)))) ∨
     (∃ pre, (pre = [] ∨ ∃ req resp, pre = [Event.CreateToken ctx ns sa req (.ok resp)]) ∧
      ((∃ err, (a.DescribeKey env w ctx ns sa).calls =
          pre ++ [Event.LoadDefaultConfig ctx (.error err)] ∧
        (a.DescribeKey env w ctx ns sa).ret =
          .returned (none, some (Errorf "unable to load SDK config, " err))) ∨
       (∃ cfg rg inp err, (a.DescribeKey env w ctx ns sa).calls =
          pre ++ [Event.LoadDefaultConfig ctx (.ok cfg),
             Event.AssumeRoleWithWebIdentity .Background rg inp (.error err)] ∧
        (a.DescribeKey env w ctx ns sa).ret =
          .returned (none, some (Errorf "failed to assume role with web identity: " err))) ∨
       (∃ cfg rg inp out, (a.DescribeKey env w ctx ns sa).calls =
          pre ++ [Event.LoadDefaultConfig ctx (.ok cfg),
             Event.AssumeRoleWithWebIdentity .Background rg inp (.ok out)] ∧
        (a.DescribeKey env w ctx ns sa).ret = .panicked nilDereference) ∨
       (∃ cfg rg inp out cr kin err, (a.DescribeKey env w ctx ns sa).calls =
          pre ++ [Event.LoadDefaultConfig ctx (.ok cfg),
             Event.AssumeRoleWithWebIdentity .Background rg inp (.ok out),
             Event.DescribeKey .Background rg cr kin (.error err)] ∧
        (a.DescribeKey env w ctx ns sa).ret =
          .returned (none, some (Errorf "failed to describe key: " err))) ∨
       (∃ cfg rg inp out cr kin key, (a.DescribeKey env w ctx ns sa).calls =
          pre ++ [Event.LoadDefaultConfig ctx (.ok cfg),
             Event.AssumeRoleWithWebIdentity .Background rg inp (.ok out),
             Event.DescribeKey .Background rg cr kin (.ok key)] ∧
        (a.DescribeKey env w ctx ns sa).ret = .returned (key, none))))) := by
  obtain ⟨h1, h2, h3⟩ := DescribeKey_shape a env w ctx ns sa htok
  rcases GetToken_cases env w ctx ns sa "sts.amazonaws.com" with
    ⟨entry, ht⟩ | ⟨err, el, rq, ht⟩ | ⟨resp, el, rq, c, ht⟩
  · rw [ht] at h1 h2 h3
    refine ⟨⟨h1, h2⟩, ?_⟩
    rcases h3 with ⟨e, he, _⟩ | ⟨_, h3⟩
    · cases he
    · exact Or.inr ⟨[], Or.inl rfl, h3⟩
  · rw [ht] at h1 h2 h3
    refine ⟨⟨h1, ?_⟩, ?_⟩
    · simp only [World.tick] at h2; omega
    · rcases h3 with ⟨e, he, hc, hr⟩ | ⟨hn, _⟩
      · cases he
        exact Or.inl ⟨rq, err, hc, hr⟩
      · cases hn
  · rw [ht] at h1 h2 h3
    refine ⟨⟨h1, ?_⟩, ?_⟩
    · simp only at h2; omega
    · rcases h3 with ⟨e, he, _⟩ | ⟨_, h3⟩
      · cases he
      · exact Or.inr ⟨_, Or.inr ⟨rq, resp, rfl⟩, h3⟩

theorem NewAwsKMS_token (opts : List KmsOption) (a : AwsKMS)
    (h : NewAwsKMS opts = .returned a) : a.token = some .k8s := by
  unfold NewAwsKMS at h
  simp only [] at h
  split_ifs at h with h1 h2 h3
  cases h
  cases ht : (List.foldl (fun a opt => opt a)
    ({ tenantRoleARN := "", keyARN := "", roleSessionName := "default-session",
       token := none, region := "" } : AwsKMS) opts).token with
  | none => exact absurd ht h3
  | some p => cases p; rfl

theorem Reconcile_shape (r : EncryptionKeyReconciler) (env : Env) (w : World)
    (ctx : Context) (req : Request) :
    ((Reconcile r env w ctx req).calls =
        [Event.Get ctx req.NamespacedName (env.Get ctx req.NamespacedName).result] ∧
      (Reconcile r env w ctx req).world.status = w.status ∧
      ((∃ err, (env.Get ctx req.NamespacedName).result = .error err ∧
          env.IsNotFound err = true ∧
          (Reconcile r env w ctx req).ret = .returned ({}, none)) ∨
       (∃ err, (env.Get ctx req.NamespacedName).result = .error err ∧
          env.IsNotFound err = false ∧
          (Reconcile r env w ctx req).ret = .returned ({}, some err)) ∨
       (∃ msg, (Reconcile r env w ctx req).ret = .panicked msg))) ∨
    (∃ (obj : EncryptionKey) (a : AwsKMS)
        (d : Run (Outcome (Option DescribeKeyOutput × Option GoError))),
      (env.Get ctx req.NamespacedName).result = .ok obj ∧
      a.token = some .k8s ∧
      d = a.DescribeKey env (w.tick (env.Get ctx req.NamespacedName).elapsed)
        (.WithTimeout ctx (10 * Second)) obj.Namespace obj.Spec.KubernetesServiceAccount ∧
      (((Reconcile r env w ctx req).calls =
          Event.Get ctx req.NamespacedName (.ok obj) :: d.calls ∧
        (Reconcile r env w ctx req).world = d.world ∧
        ((∃ msg : String, d.ret = .panicked msg ∧
            (Reconcile r env w ctx req).ret = .panicked msg) ∨
         (∃ (x : Option DescribeKeyOutput) (err : GoError), d.ret = .returned (x, some err) ∧
            (Reconcile r env w ctx req).ret =
              .returned ({}, some (Errorf "failed to describe KMS key: " err))) ∨
         (∃ key : Option DescribeKeyOutput, d.ret = .returned (key, none) ∧
            key.bind (fun i => i.KeyMetadata) = none ∧
            (Reconcile r env w ctx req).ret =
              .returned ({ RequeueAfter := Minute }, none)) ∨
         (∃ (key : Option DescribeKeyOutput) (km : KeyMetadata), d.ret = .returned (key, none) ∧
            key.bind (fun i => i.KeyMetadata) = some km ∧ km.Arn = none ∧
            (Reconcile r env w ctx req).ret = .panicked nilDereference))) ∨
       (∃ (key : Option DescribeKeyOutput) (km : KeyMetadata) (arn : String)
          (res : Option GoError), d.ret = .returned (key, none) ∧
          key.bind (fun i => i.KeyMetadata) = some km ∧ km.Arn = some arn ∧
          res = (env.StatusUpdate ctx
            { obj with Status := { obj.Status with
                KeyState := km.KeyState, Arn := arn,
                LastReconciledTime := some d.world.now } }).result ∧
          (Reconcile r env w ctx req).calls =
            Event.Get ctx req.NamespacedName (.ok obj) :: d.calls ++
              [Event.StatusUpdate ctx
                { obj with Status := { obj.Status with
                    KeyState := km.KeyState, Arn := arn,
                    LastReconciledTime := some d.world.now } } res] ∧
          d.world.now ≤ (Reconcile r env w ctx req).world.now ∧
          ((∃ err, res = some err ∧
              (Reconcile r env w ctx req).world.status = d.world.status ∧
              (Reconcile r env w ctx req).ret =
                .returned ({}, some (Errorf "failed to update status: " err))) ∨
           (res = none ∧
              (Reconcile r env w ctx req).world.status =
                Function.update d.world.status obj.key
                  (some (EncryptionKeyStatus.stored { obj.Status with
                    KeyState := km.KeyState, Arn := arn,
                    LastReconciledTime := some d.world.now })) ∧
              (Reconcile r env w ctx req).ret =
                .returned ({ RequeueAfter := Minute }, none)))))) := by
  unfold Reconcile
  simp only []
  cases hg : (env.Get ctx req.NamespacedName).result with
  | error err =>
    left
    simp only []
    by_cases hnf : env.IsNotFound err = true
    · simp [hnf, World.tick]
    · simp [hnf, World.tick]
  | ok obj =>
    simp only []
    cases hk : NewAwsKMS [WithTenantRoleARN obj.Spec.AccountID, WithKeyARN obj.Spec.KeyID,
        WithRoleSessionName "encryption-observer", WithTokenProvider r.tokenProvider] with
    | panicked msg =>
      left
      simp [World.tick]
    | returned a =>
      right
      refine ⟨obj, a, _, rfl, NewAwsKMS_token _ a hk, rfl, ?_⟩
      simp only []
      generalize a.DescribeKey env (w.tick (env.Get ctx req.NamespacedName).elapsed)
        (.WithTimeout ctx (10 * Second)) obj.Namespace obj.Spec.KubernetesServiceAccount = d
      obtain ⟨dret, dworld, dcalls⟩ := d
      cases dret with
      | panicked msg => exact Or.inl ⟨rfl, rfl, Or.inl ⟨msg, rfl, rfl⟩⟩
      | returned v =>
        obtain ⟨x, e⟩ := v
        cases e with
        | some err => exact Or.inl ⟨rfl, rfl, Or.inr (Or.inl ⟨x, err, rfl, rfl⟩)⟩
        | none =>
          simp only []
          cases hb : x.bind (fun i => i.KeyMetadata) with
          | none => exact Or.inl ⟨rfl, rfl, Or.inr (Or.inr (Or.inl ⟨x, rfl, hb, rfl⟩))⟩
          | some km =>
            simp only []
            cases ha : km.Arn with
            | none =>
              exact Or.inl ⟨rfl, rfl, Or.inr (Or.inr (Or.inr ⟨x, km, rfl, hb, ha, rfl⟩))⟩
            | some arn =>
              right
              simp only []
              cases hu : (env.StatusUpdate ctx
                { obj with Status := { obj.Status with
                    KeyState := km.KeyState, Arn := arn,
                    LastReconciledTime := some dworld.now } }).result with
              | some err =>
                exact ⟨x, km, arn, some err, rfl, hb, ha, hu.symm, by simp,
                  by simp [World.tick], Or.inl ⟨err, rfl, rfl, rfl⟩⟩
              | none =>
                exact ⟨x, km, arn, none, rfl, hb, ha, hu.symm, by simp,
                  by simp [World.tick], Or.inr ⟨rfl, rfl, rfl⟩⟩

theorem DescribeKey_failure (a : AwsKMS) (env : Env) (w : World) (ctx : Context)
    (ns sa : String) (htok : a.token = some .k8s) :
    (∀ e ∈ (a.DescribeKey env w ctx ns sa).calls, e.isStatusUpdate = false) ∧
    (∀ ev ∈ (a.DescribeKey env w ctx ns sa).calls, ev.failedStep = true →
      (∃ before, (a.DescribeKey env w ctx ns sa).calls = before ++ [ev]) ∧
      (∃ x err, (a.DescribeKey env w ctx ns sa).ret = .returned (x, some err))) := by
  obtain ⟨-, hp⟩ := DescribeKey_paths a env w ctx ns sa htok
  rcases hp with ⟨rq, err, hc, hr⟩ | ⟨pre, hpre, hp⟩
  · rw [hc, hr]
    refine ⟨by simp [Event.isStatusUpdate], ?_⟩
    intro ev hev _
    simp only [List.mem_singleton] at hev
    subst hev
    exact ⟨⟨[], rfl⟩, ⟨_, _, rfl⟩⟩
  · have hpre2 : ∀ e ∈ pre, e.isStatusUpdate = false ∧ e.failedStep = false := by
      rcases hpre with rfl | ⟨rq, resp, rfl⟩
      · simp
      · simp [Event.isStatusUpdate, Event.failedStep]
    rcases hp with ⟨err, hc, hr⟩ | ⟨cfg, rg, inp, err, hc, hr⟩ | ⟨cfg, rg, inp, out, hc, hr⟩ |
      ⟨cfg, rg, inp, out, cr, kin, err, hc, hr⟩ | ⟨cfg, rg, inp, out, cr, kin, key, hc, hr⟩
    all_goals rw [hc, hr]
    all_goals refine ⟨?_, ?_⟩
    all_goals intro ev hev
    all_goals simp only [List.mem_append, List.mem_cons, List.mem_singleton,
      List.not_mem_nil, or_false] at hev
    all_goals rcases hev with h | h
    all_goals first
      | exact (hpre2 _ h).1
      | (intro hf; rw [(hpre2 _ h).2] at hf; cases hf)
      | skip
    all_goals repeat' (rcases h with h | h)
    all_goals first
      | rfl
      | (intro hf; cases hf; done)
      | (intro _; exact ⟨⟨_, (List.append_assoc pre [_] [_]).symm⟩, ⟨_, _, rfl⟩⟩)
      | (intro _; exact ⟨⟨_, (List.append_assoc pre [_, _] [_]).symm⟩, ⟨_, _, rfl⟩⟩)

/-- C4. Short-circuit on an absent resource: when the storage read answers with
an error that is classified as not found, the pass returns the empty result (no
requeue) with a nil error; the read is the only collaborator call of the pass,
so there is no token issuance, no federation exchange, no key describe and no
status update, and the stored observed states and the token cache are as before. -/
theorem Reconcile_absent_resource (r : EncryptionKeyReconciler) (env : Env) (w : World)
    (ctx : Context) (req : Request) (err : GoError)
    (hget : (env.Get ctx req.NamespacedName).result = .error err)
    (hnf : env.IsNotFound err = true) :
    (Reconcile r env w ctx req).ret =
      .returned ({ Requeue := false, RequeueAfter := 0 }, none) ∧
    (Reconcile r env w ctx req).calls = [Event.Get ctx req.NamespacedName (.error err)] ∧
    (Reconcile r env w ctx req).world.status = w.status ∧
    (Reconcile r env w ctx req).world.cache = w.cache := by
  unfold Reconcile
  simp only [hget, hnf, if_true]
  exact ⟨trivial, trivial, rfl, rfl⟩

theorem Reconcile_absent_resource_witness :
    (Reconcile exReconciler exEnvAbsent exWorld (.incoming 0) exRequest).ret =
      .returned ({ Requeue := false, RequeueAfter := 0 }, none) ∧
    (Reconcile exReconciler exEnvAbsent exWorld (.incoming 0) exRequest).calls =
      [Event.Get (.incoming 0) exRequest.NamespacedName (.error (.errorString "not found"))] :=
  have h := Reconcile_absent_resource exReconciler exEnvAbsent exWorld (.incoming 0)
    exRequest (.errorString "not found") (by decide) (by decide)
  ⟨h.1, h.2.1⟩

/-- C5. Failure path: when a call of the pass to the token issuer, to the
federation exchange or to the key describe service answers with an error, that
call is the last collaborator call of the pass, the pass makes no status update
and the stored observed states are as before, and the pass returns a non-nil
error with the empty result (`Requeue = false`, `RequeueAfter = 0`). -/
theorem Reconcile_failure_path (r : EncryptionKeyReconciler) (env : Env) (w : World)
    (ctx : Context) (req : Request) (ev : Event)
    (hev : ev ∈ (Reconcile r env w ctx req).calls) (hfail : ev.failedStep = true) :
    (∃ before, (Reconcile r env w ctx req).calls = before ++ [ev]) ∧
    (∀ e ∈ (Reconcile r env w ctx req).calls, e.isStatusUpdate = false) ∧
    (Reconcile r env w ctx req).world.status = w.status ∧
    (∃ err, (Reconcile r env w ctx req).ret =
      .returned ({ Requeue := false, RequeueAfter := 0 }, some err)) := by
  rcases Reconcile_shape r env w ctx req with ⟨hc, -, -⟩ | ⟨obj, a, d, -, htok, hd, hrest⟩
  · rw [hc, List.mem_singleton] at hev
    subst hev
    cases hfail
  · obtain ⟨⟨hst, -⟩, -⟩ := DescribeKey_paths a env
      (w.tick (env.Get ctx req.NamespacedName).elapsed) (.WithTimeout ctx (10 * Second))
      obj.Namespace obj.Spec.KubernetesServiceAccount htok
    obtain ⟨hnoupd, hlast⟩ := DescribeKey_failure a env
      (w.tick (env.Get ctx req.NamespacedName).elapsed) (.WithTimeout ctx (10 * Second))
      obj.Namespace obj.Spec.KubernetesServiceAccount htok
    rw [← hd] at hst hnoupd hlast
    have hin : ev ∈ d.calls := by
      rcases hrest with ⟨hc, -, -⟩ | ⟨key, km, arn, res, -, -, -, -, hc, -, -⟩
      · rw [hc, List.mem_cons] at hev
        rcases hev with rfl | h
        · cases hfail
        · exact h
      · rw [hc, List.cons_append, List.mem_cons, List.mem_append, List.mem_singleton] at hev
        rcases hev with rfl | h | rfl
        · cases hfail
        · exact h
        · cases hfail
    obtain ⟨⟨before, hbefore⟩, x, err, hret⟩ := hlast ev hin hfail
    rcases hrest with ⟨hc, hw, halt⟩ | ⟨key, km, arn, res, hr, -⟩
    · rcases halt with ⟨msg, h1, -⟩ | ⟨x2, err2, -, h2⟩ | ⟨key, h1, -⟩ | ⟨key, km, h1, -⟩
      · rw [hret] at h1; cases h1
      · refine ⟨⟨Event.Get ctx req.NamespacedName (.ok obj) :: before, ?_⟩, ?_, ?_, ⟨_, h2⟩⟩
        · rw [hc, hbefore]; rfl
        · intro e he
          rw [hc, List.mem_cons] at he
          rcases he with rfl | h
          · rfl
          · exact hnoupd e h
        · rw [hw, hst]; rfl
      · rw [hret] at h1; cases h1
      · rw [hret] at h1; cases h1
    · rw [hret] at hr; cases hr

theorem Reconcile_failure_path_witness :
    (∀ e ∈ (Reconcile exReconciler exEnvNoRole exWorld (.incoming 0) exRequest).calls,
      e.isStatusUpdate = false) ∧
    (∃ err, (Reconcile exReconciler exEnvNoRole exWorld (.incoming 0) exRequest).ret =
      .returned ({ Requeue := false, RequeueAfter := 0 }, some err)) :=
  have h := Reconcile_failure_path exReconciler exEnvNoRole exWorld (.incoming 0) exRequest
    (.AssumeRoleWithWebIdentity .Background "eu-north-1"
      { RoleArn := some "arn:aws:iam::1:role/r", RoleSessionName := some "encryption-observer",
        WebIdentityToken := some "tok-1", DurationSeconds := some 900 }
      (.error (.errorString "denied")))
    (by decide) (by decide)
  ⟨h.2.1, h.2.2.2⟩

theorem DescribeKey_describe_ok (a : AwsKMS) (env : Env) (w : World) (ctx : Context)
    (ns sa : String) (htok : a.token = some .k8s) (c : Context) (rg : String)
    (cr : Credentials) (kin : DescribeKeyInput) (key : Option DescribeKeyOutput)
    (hev : Event.DescribeKey c rg cr kin (.ok key) ∈ (a.DescribeKey env w ctx ns sa).calls) :
    (a.DescribeKey env w ctx ns sa).ret = .returned (key, none) := by
  obtain ⟨-, hp⟩ := DescribeKey_paths a env w ctx ns sa htok
  rcases hp with ⟨rq, err, hc, hr⟩ | ⟨pre, hpre, hp⟩
  · rw [hc, List.mem_singleton] at hev
    cases hev
  · have hpre2 : Event.DescribeKey c rg cr kin (.ok key) ∉ pre := by
      rcases hpre with rfl | ⟨rq, resp, rfl⟩
      · simp
      · simp
    rcases hp with ⟨err, hc, hr⟩ | ⟨cfg, rg, inp, err, hc, hr⟩ | ⟨cfg, rg, inp, out, hc, hr⟩ |
      ⟨cfg, rg, inp, out, cr, kin, err, hc, hr⟩ | ⟨cfg, rg, inp, out, cr, kin, key, hc, hr⟩
    all_goals rw [hc] at hev
    all_goals simp only [List.mem_append, List.mem_cons, List.mem_singleton,
      List.not_mem_nil, or_false, hpre2, false_or, Event.DescribeKey.injEq,
      Except.ok.injEq, reduceCtorEq, and_false] at hev
    obtain ⟨-, -, -, -, rfl⟩ := hev
    exact hr

theorem DescribeKey_error_chain (a : AwsKMS) (env : Env) (w : World) (ctx : Context)
    (ns sa : String) (htok : a.token = some .k8s) (ev : Event) (e : GoError) :
    ev ∈ (a.DescribeKey env w ctx ns sa).calls → ev.failure = some e →
    (a.DescribeKey env w ctx ns sa).ret = .returned (none, some (match ev with
      | .CreateToken _ ns sa _ _ =>
        Errorf "failed to get web identity token: "
          (Errorf ("failed to create token for service account " ++ sa ++
            " in targetNamespace " ++ ns ++ ": ") e)
      | .AssumeRoleWithWebIdentity _ _ _ _ =>
        Errorf "failed to assume role with web identity: " e
      | .DescribeKey _ _ _ _ _ => Errorf "failed to describe key: " e
      | _ => e)) := by
  intro hev he
  obtain ⟨-, hp⟩ := DescribeKey_paths a env w ctx ns sa htok
  rcases hp with ⟨rq, err, hc, hr⟩ | ⟨pre, hpre, hp⟩
  · rw [hc, List.mem_singleton] at hev
    subst hev
    cases he
    exact hr
  · have hpre2 : ∀ x ∈ pre, x.failure = none := by
      rcases hpre with rfl | ⟨rq, resp, rfl⟩
      · simp
      · simp [Event.failure]
    rcases hp with ⟨err, hc, hr⟩ | ⟨cfg, rg, inp, err, hc, hr⟩ | ⟨cfg, rg, inp, out, hc, hr⟩ |
      ⟨cfg, rg, inp, out, cr, kin, err, hc, hr⟩ | ⟨cfg, rg, inp, out, cr, kin, key, hc, hr⟩
    all_goals rw [hc] at hev
    all_goals simp only [List.mem_append, List.mem_cons, List.mem_singleton,
      List.not_mem_nil, or_false] at hev
    all_goals rcases hev with h | h
    all_goals first
      | (rw [hpre2 _ h] at he; cases he)
      | skip
    all_goals repeat' (rcases h with h | h)
    all_goals first
      | (cases he; done)
      | (cases he; exact hr)

theorem wholeSeconds_bounds (t : Int) :
    t - Second < wholeSeconds t ∧ wholeSeconds t ≤ t := by
  unfold wholeSeconds Second
  omega

/-- C7, as amended. When the storage read answers with the resource, the key
describe call of the pass answers with key metadata of state `s` and ARN `a`,
and the storage layer accepts the status update for that resource with that
state and ARN, then the pass ends with one status update, sent on the context
of the pass, that carries `KeyState = s`, `Arn = a` and as `LastReconciledTime`
a clock reading `t` of the pass (not earlier than its start). The status stored
for the resource has `KeyState = s`, `Arn = a` and `LastReconciledTime` equal to
`t` cut to whole seconds, which is later than one second before the start of
the pass and not later than its end. The error is nil and the result asks for
the next pass after exactly 60 seconds. -/
theorem Reconcile_end_to_end (r : EncryptionKeyReconciler) (env : Env) (w : World)
    (ctx : Context) (req : Request) (obj : EncryptionKey) (c1 : Context) (rg : String)
    (cr : Credentials) (kin : DescribeKeyInput) (km : KeyMetadata) (s a : String)
    (hget : (env.Get ctx req.NamespacedName).result = .ok obj)
    (hdesc : Event.DescribeKey c1 rg cr kin (.ok (some { KeyMetadata := some km })) ∈
      (Reconcile r env w ctx req).calls)
    (hstate : km.KeyState = s) (harn : km.Arn = some a)
    (hupd : ∀ t : Int, (env.StatusUpdate ctx
      { obj with Status := { obj.Status with
          KeyState := s, Arn := a, LastReconciledTime := some t } }).result = none) :
    ∃ (t : Int) (st : EncryptionKeyStatus),
      w.now ≤ t ∧ t ≤ (Reconcile r env w ctx req).world.now ∧
      (∃ before, (Reconcile r env w ctx req).calls = before ++
        [Event.StatusUpdate ctx
          { obj with Status := { obj.Status with
              KeyState := s, Arn := a, LastReconciledTime := some t } } none]) ∧
      (Reconcile r env w ctx req).world.status obj.key = some st ∧
      st = EncryptionKeyStatus.stored { obj.Status with
        KeyState := s, Arn := a, LastReconciledTime := some t } ∧
      st.KeyState = s ∧ st.Arn = a ∧ st.LastReconciledTime = some (wholeSeconds t) ∧
      w.now - Second < wholeSeconds t ∧
      wholeSeconds t ≤ (Reconcile r env w ctx req).world.now ∧
      (Reconcile r env w ctx req).ret =
        .returned ({ Requeue := false, RequeueAfter := 60 * Second }, none) := by
  subst hstate
  rcases Reconcile_shape r env w ctx req with ⟨hc, -, -⟩ | ⟨obj2, aw, d, hg, htok, hd, hrest⟩
  · rw [hc, List.mem_singleton] at hdesc
    cases hdesc
  · rw [hget] at hg
    cases hg
    obtain ⟨⟨hst, hnow⟩, -⟩ := DescribeKey_paths aw env
      (w.tick (env.Get ctx req.NamespacedName).elapsed) (.WithTimeout ctx (10 * Second))
      obj.Namespace obj.Spec.KubernetesServiceAccount htok
    obtain ⟨hnoupd, -⟩ := DescribeKey_failure aw env
      (w.tick (env.Get ctx req.NamespacedName).elapsed) (.WithTimeout ctx (10 * Second))
      obj.Namespace obj.Spec.KubernetesServiceAccount htok
    have hok := DescribeKey_describe_ok aw env
      (w.tick (env.Get ctx req.NamespacedName).elapsed) (.WithTimeout ctx (10 * Second))
      obj.Namespace obj.Spec.KubernetesServiceAccount htok c1 rg cr kin
      (some { KeyMetadata := some km })
    rw [← hd] at hst hnow hnoupd hok
    have hd2 : Event.DescribeKey c1 rg cr kin (.ok (some { KeyMetadata := some km })) ∈
        d.calls := by
      rcases hrest with ⟨hc, -, -⟩ | ⟨key, km2, arn, res, -, -, -, -, hc, -, -⟩
      · rw [hc, List.mem_cons] at hdesc
        rcases hdesc with h | h
        · cases h
        · exact h
      · rw [hc, List.cons_append, List.mem_cons, List.mem_append, List.mem_singleton]
          at hdesc
        rcases hdesc with h | h | h
        · cases h
        · exact h
        · cases h
    have hret := hok hd2
    rcases hrest with ⟨-, -, halt⟩ | ⟨key, km2, arn, res, hr, hb, ha, hres, hc, hn2, halt⟩
    · rcases halt with ⟨msg, h1, -⟩ | ⟨x, err, h1, -⟩ | ⟨key, h1, hb, -⟩ | ⟨key, km2, h1, hb, ha, -⟩
      · rw [hret] at h1; cases h1
      · rw [hret] at h1; cases h1
      · rw [hret] at h1
        cases h1
        simp only [Option.some_bind, reduceCtorEq] at hb
      · rw [hret] at h1
        cases h1
        simp only [Option.some_bind, Option.some.injEq] at hb
        subst hb
        rw [harn] at ha
        cases ha
    · rw [hret] at hr
      cases hr
      simp only [Option.some_bind, Option.some.injEq] at hb
      subst hb
      rw [harn] at ha
      cases ha
      rw [hupd d.world.now] at hres
      subst hres
      rcases halt with ⟨err, h1, -⟩ | ⟨-, hs, hret2⟩
      · cases h1
      · have hb := wholeSeconds_bounds d.world.now
        have h0 : w.now ≤ d.world.now := by
          simp only [World.tick] at hnow
          omega
        refine ⟨d.world.now, _, h0, hn2, ⟨_, hc⟩, ?_, rfl, rfl, rfl, rfl, ?_, ?_, hret2⟩
        · rw [hs, Function.update_same]
        · omega
        · omega

theorem Reconcile_end_to_end_witness :
    ∃ (t : Int) (st : EncryptionKeyStatus),
      exWorld.now ≤ t ∧
      t ≤ (Reconcile exReconciler exEnv exWorld (.incoming 0) exRequest).world.now ∧
      (∃ before, (Reconcile exReconciler exEnv exWorld (.incoming 0) exRequest).calls =
        before ++ [Event.StatusUpdate (.incoming 0)
          { exKey with Status := { exKey.Status with
              KeyState := "Enabled", Arn := "arn:aws:kms:eu-north-1:1:key/k1",
              LastReconciledTime := some t } } none]) ∧
      (Reconcile exReconciler exEnv exWorld (.incoming 0) exRequest).world.status exKey.key =
        some st ∧
      st = EncryptionKeyStatus.stored { exKey.Status with
        KeyState := "Enabled", Arn := "arn:aws:kms:eu-north-1:1:key/k1",
        LastReconciledTime := some t } ∧
      st.KeyState = "Enabled" ∧ st.Arn = "arn:aws:kms:eu-north-1:1:key/k1" ∧
      st.LastReconciledTime = some (wholeSeconds t) ∧
      exWorld.now - Second < wholeSeconds t ∧
      wholeSeconds t ≤
        (Reconcile exReconciler exEnv exWorld (.incoming 0) exRequest).world.now ∧
      (Reconcile exReconciler exEnv exWorld (.incoming 0) exRequest).ret =
        .returned ({ Requeue := false, RequeueAfter := 60 * Second }, none) :=
  Reconcile_end_to_end exReconciler exEnv exWorld (.incoming 0) exRequest exKey
    .Background "eu-north-1"
    { AccessKeyID := "AKIA", SecretAccessKey := "secret", SessionToken := "session" }
    { KeyId := some "k1" } exMetadata "Enabled" "arn:aws:kms:eu-north-1:1:key/k1"
    (by decide) (by decide) (by decide) (by decide) (fun _ => rfl)

/-- C7, counterexample. The pass starts at clock reading 1000.9s and every
collaborator answers within a millisecond. The describe call answers with an
enabled key and its ARN, the status update is accepted and the pass returns
a nil error with the next pass after 60 seconds, but the stored
`LastReconciledTime` is 1000s, which is earlier than the start of the pass. -/
theorem Reconcile_timestamp_before_start :
    (Reconcile exReconciler exEnvFast exWorldLate (.incoming 0) exRequest).ret =
      .returned ({ Requeue := false, RequeueAfter := 60 * Second }, none) ∧
    (Reconcile exReconciler exEnvFast exWorldLate (.incoming 0) exRequest).calls.getLast? =
      some (Event.StatusUpdate (.incoming 0)
        { exKey with Status := { exStatus with
            KeyState := "Enabled", Arn := "arn:aws:kms:eu-north-1:1:key/k1",
            LastReconciledTime := some (1000 * Second + 905000000) } } none) ∧
    ((Reconcile exReconciler exEnvFast exWorldLate (.incoming 0) exRequest).world.status
      exKey.key).map (fun st => st.KeyState) = some "Enabled" ∧
    ((Reconcile exReconciler exEnvFast exWorldLate (.incoming 0) exRequest).world.status
      exKey.key).map (fun st => st.Arn) = some "arn:aws:kms:eu-north-1:1:key/k1" ∧
    ((Reconcile exReconciler exEnvFast exWorldLate (.incoming 0) exRequest).world.status
      exKey.key).bind (fun st => st.LastReconciledTime) = some (1000 * Second) ∧
    1000 * Second < exWorldLate.now := by
  decide

/-- C8, at a pass in which every collaborator answers. The resource is fetched
with `KeyUsage = SIGN_VERIFY` in its status and the provider describes the key
with `KeyUsage = ENCRYPT_DECRYPT`, `Enabled = true` and origin `AWS_KMS`; the
pass succeeds, and the stored status has the state and the ARN of the answer but
still `KeyUsage = SIGN_VERIFY`, `Enabled = false` and an empty origin: the
snapshot of the provider does not replace the prior observed state. -/
theorem Reconcile_keeps_prior_fields :
    (Reconcile exReconciler exEnv exWorld (.incoming 0) exRequest).ret =
      .returned ({ Requeue := false, RequeueAfter := 60 * Second }, none) ∧
    (Reconcile exReconciler exEnv exWorld (.incoming 0) exRequest).world.status exKey.key =
      some { exStatus with
        KeyState := "Enabled", Arn := "arn:aws:kms:eu-north-1:1:key/k1",
        LastReconciledTime := some (1005 * Second) } ∧
    ((Reconcile exReconciler exEnv exWorld (.incoming 0) exRequest).world.status
      exKey.key).map (fun st => st.KeyUsage) = some "SIGN_VERIFY" ∧
    exMetadata.KeyUsage = "ENCRYPT_DECRYPT" ∧
    ((Reconcile exReconciler exEnv exWorld (.incoming 0) exRequest).world.status
      exKey.key).map (fun st => st.Enabled) = some false ∧
    exMetadata.Enabled = true ∧
    ((Reconcile exReconciler exEnv exWorld (.incoming 0) exRequest).world.status
      exKey.key).map (fun st => st.Origin) = some "" ∧
    exMetadata.Origin = "AWS_KMS" := by
  decide

/-- C9, at a pass in which every collaborator answers. The pass is called with
context `incoming 0`; the token issuer and the SDK configuration loader get the
context with the 10 second timeout derived from it, but the federation exchange
and the key describe call get `context.Background()`, which is not derived from
the caller's context. -/
theorem DescribeKey_drops_context :
    (Reconcile exReconciler exEnv exWorld (.incoming 0) exRequest).calls.map Event.ctx =
      [.incoming 0,
       .WithTimeout (.incoming 0) (10 * Second),
       .WithTimeout (.incoming 0) (10 * Second),
       .Background,
       .Background,
       .incoming 0] ∧
    Context.inherits (.incoming 0) (.WithTimeout (.incoming 0) (10 * Second)) = true ∧
    Context.inherits (.WithTimeout (.incoming 0) (10 * Second)) .Background = false ∧
    Context.inherits (.incoming 0) .Background = false := by
  decide

/-- C6, as amended. When a call of the pass to the token issuer, the federation
exchange, the key describe service or the status update answers with an error
`e`, the pass returns the empty result and an error that wraps `e`: one
`fmt.Errorf` with `%w` for each layer the error passes (`GetToken`,
`DescribeKey`, `Reconcile`), each of which puts its own text before the message
of the error it wraps and unwraps to that error. -/
theorem Reconcile_error_wrapping (r : EncryptionKeyReconciler) (env : Env) (w : World)
    (ctx : Context) (req : Request) (ev : Event) (e : GoError) :
    ev ∈ (Reconcile r env w ctx req).calls → ev.failure = some e →
    (Reconcile r env w ctx req).ret =
      .returned ({ Requeue := false, RequeueAfter := 0 }, some (match ev with
        | .CreateToken _ ns sa _ _ =>
          Errorf "failed to describe KMS key: "
            (Errorf "failed to get web identity token: "
              (Errorf ("failed to create token for service account " ++ sa ++
                " in targetNamespace " ++ ns ++ ": ") e))
        | .AssumeRoleWithWebIdentity _ _ _ _ =>
          Errorf "failed to describe KMS key: "
            (Errorf "failed to assume role with web identity: " e)
        | .DescribeKey _ _ _ _ _ =>
          Errorf "failed to describe KMS key: " (Errorf "failed to describe key: " e)
        | .StatusUpdate _ _ _ => Errorf "failed to update status: " e
        | _ => e)) ∧
    (∀ (text : String) (err : GoError),
      (Errorf text err).Unwrap = some err ∧ (Errorf text err).Error = text ++ err.Error) := by
  intro hev he
  refine ⟨?_, fun text err => ⟨rfl, rfl⟩⟩
  rcases Reconcile_shape r env w ctx req with ⟨hc, -, -⟩ | ⟨obj, a, d, -, htok, hd, hrest⟩
  · rw [hc, List.mem_singleton] at hev
    subst hev
    cases he
  · obtain ⟨hnoupd, -⟩ := DescribeKey_failure a env
      (w.tick (env.Get ctx req.NamespacedName).elapsed) (.WithTimeout ctx (10 * Second))
      obj.Namespace obj.Spec.KubernetesServiceAccount htok
    have hchain := DescribeKey_error_chain a env
      (w.tick (env.Get ctx req.NamespacedName).elapsed) (.WithTimeout ctx (10 * Second))
      obj.Namespace obj.Spec.KubernetesServiceAccount htok ev e
    rw [← hd] at hnoupd hchain
    have hnone : ev ∈ d.calls → ∀ (x : Option DescribeKeyOutput), d.ret ≠ .returned (x, none) := by
      intro hin x hret
      have h1 := hchain hin he
      rw [hret] at h1
      cases h1
    have hpan : ev ∈ d.calls → ∀ (msg : String), d.ret ≠ .panicked msg := by
      intro hin x hret
      have h1 := hchain hin he
      rw [hret] at h1
      cases h1
    rcases hrest with ⟨hc, -, halt⟩ | ⟨key, km, arn, res, hr, -, -, -, hc, -, halt⟩
    · rw [hc, List.mem_cons] at hev
      rcases hev with rfl | hin
      · cases he
      · rcases halt with ⟨msg, h1, -⟩ | ⟨x, err, h1, h2⟩ | ⟨key, h1, -⟩ | ⟨key, km, h1, -⟩
        · exact absurd h1 (hpan hin msg)
        · have h3 := hchain hin he
          have h4 := hnoupd ev hin
          rw [h1] at h3
          rw [h2]
          cases ev with
          | Get c k res => cases he
          | LoadDefaultConfig c res => cases he
          | StatusUpdate c ob res => cases h4
          | CreateToken c ns sa rq res =>
            simp only [Outcome.returned.injEq, Prod.mk.injEq, Option.some.injEq] at h3
            rw [h3.2]
          | AssumeRoleWithWebIdentity c rg inp res =>
            simp only [Outcome.returned.injEq, Prod.mk.injEq, Option.some.injEq] at h3
            rw [h3.2]
          | DescribeKey c rg cr kin res =>
            simp only [Outcome.returned.injEq, Prod.mk.injEq, Option.some.injEq] at h3
            rw [h3.2]
        · exact absurd h1 (hnone hin key)
        · exact absurd h1 (hnone hin key)
    · rw [hc, List.cons_append, List.mem_cons, List.mem_append, List.mem_singleton] at hev
      rcases hev with rfl | hin | rfl
      · cases he
      · exact absurd hr (hnone hin key)
      · rcases halt with ⟨err, h1, -, h2⟩ | ⟨h1, -, -⟩
        · subst h1
          cases he
          exact h2
        · subst h1
          cases he

theorem Reconcile_error_wrapping_witness :
    (Reconcile exReconciler exEnvNoRole exWorld (.incoming 0) exRequest).ret =
      .returned ({ Requeue := false, RequeueAfter := 0 },
        some (Errorf "failed to describe KMS key: "
          (Errorf "failed to assume role with web identity: " (.errorString "denied")))) :=
  (Reconcile_error_wrapping exReconciler exEnvNoRole exWorld (.incoming 0) exRequest
    (.AssumeRoleWithWebIdentity .Background "eu-north-1"
      { RoleArn := some "arn:aws:iam::1:role/r", RoleSessionName := some "encryption-observer",
        WebIdentityToken := some "tok-1", DurationSeconds := some 900 }
      (.error (.errorString "denied")))
    (.errorString "denied") (by decide) (by decide)).1

/-- C6, counterexample. The token issuer answers with the error `boom`.
`GetToken` returns a different error value, whose message is not `boom`, and so
does the pass. -/
theorem Reconcile_error_not_identical :
    (exEnvNoToken.CreateToken (.WithTimeout (.incoming 0) (10 * Second)) "ns1" "sa1"
      { Spec := { Audiences := ["sts.amazonaws.com"], ExpirationSeconds := some 900 },
        Status := { Token := "", ExpirationTimestamp := 0 } }).result =
      .error (.errorString "boom") ∧
    (K8s.GetToken exEnvNoToken exWorld (.WithTimeout (.incoming 0) (10 * Second))
      "ns1" "sa1" "sts.amazonaws.com").ret =
      ("", some (.wrapError
        "failed to create token for service account sa1 in targetNamespace ns1: boom"
        (.errorString "boom"))) ∧
    (K8s.GetToken exEnvNoToken exWorld (.WithTimeout (.incoming 0) (10 * Second))
      "ns1" "sa1" "sts.amazonaws.com").ret.2 ≠ some (.errorString "boom") ∧
    (Reconcile exReconciler exEnvNoToken exWorld (.incoming 0) exRequest).ret ≠
      .returned ({ Requeue := false, RequeueAfter := 0 }, some (.errorString "boom")) ∧
    (match (Reconcile exReconciler exEnvNoToken exWorld (.incoming 0) exRequest).ret with
      | .returned (_, some err) => err.Error
      | _ => "") =
      "failed to describe KMS key: failed to get web identity token: " ++
        "failed to create token for service account sa1 in targetNamespace ns1: boom" := by
  decide

end KeyGranter
